import Mathlib

/-!
Verification of the bookmark store of `src/context/bookmark.context.tsx`
(widgetify-extension).

JavaScript strings are modelled as lists of Unicode scalar values
(`JStr := List Char`).  The JS `String.prototype.length` (UTF-16 code
units) is modelled by `jsLen`, the byte size of `new Blob([s])` (UTF-8
bytes) by `blobSize`.  `JSON.stringify` of a bookmark record is modelled
by `stringifyBookmark` (keys in declaration order, `undefined` fields
omitted, JSON string escaping as in the JSON standard).  The external
image codec (the `Image`/canvas machinery used by `compressImageData`)
is modelled by an oracle `ImgCodec`: `atob` returns the decoded byte
count of a base64 payload or `none` when `window.atob` would throw, and
`load` describes the outcome of loading/re-encoding the image
(`loaded` = `img.onload` fired and `canvas.toDataURL` produced the given
data, `loadError` = `img.onerror` fired, `rejected` = the promise
rejected).  Persistent storage is modelled by the `storedBookmarks` and
`deletedBookmarkIds` fields of `StoreState`.
-/

/-- A JavaScript string, as its list of characters. -/
abbrev JStr := List Char

/-- Embed a Lean string literal as a `JStr`. -/
def str (s : String) : JStr := s.data

/-- List of `n` copies of the character `a` (used to build large payloads). -/
def repA (n : Nat) : JStr := List.replicate n 'a'

/-- Width of a character in UTF-16 code units (JS `String.prototype.length`). -/
def charW (c : Char) : Nat := if c.toNat < 65536 then 1 else 2

/-- JS string length: number of UTF-16 code units. -/
def jsLen (l : JStr) : Nat := (l.map charW).sum

/-- Width of a character in UTF-8 bytes. -/
def utf8W (c : Char) : Nat :=
  if c.toNat < 128 then 1 else if c.toNat < 2048 then 2 else if c.toNat < 65536 then 3 else 4

/-- Byte size of `new Blob([s])`: the UTF-8 byte count of the string. -/
def blobSize (l : JStr) : Nat := (l.map utf8W).sum

/-- The two entry kinds of the bookmark store. -/
inductive BmType where
  | BOOKMARK
  | FOLDER
deriving DecidableEq, Repr

/-- A bookmark entry, with the fields used by `bookmark.context.tsx`
(`Bookmark` of `bookmark.types`, as described by the spec data model). -/
structure Bookmark where
  id : JStr
  type : BmType
  parentId : Option JStr
  pinned : Bool
  isLocal : Bool
  customImage : Option JStr
deriving DecidableEq, Repr

/-- In-memory sequence plus the two persisted keys
(`"bookmarks"` and `"deletedBookmarkIds"`). -/
structure StoreState where
  bookmarks : List Bookmark
  storedBookmarks : List Bookmark
  deletedBookmarkIds : List JStr
deriving DecidableEq, Repr

/-- Hex digit character (lower case), for JSON control-character escapes. -/
def hexDigit (n : Nat) : Char := if n < 10 then Char.ofNat (48 + n) else Char.ofNat (87 + n)

/-- JSON escape of one character, as produced by `JSON.stringify`. -/
def escChar (c : Char) : JStr :=
  if c = '"' then ['\\', '"']
  else if c = '\\' then ['\\', '\\']
  else if c = Char.ofNat 8 then ['\\', 'b']
  else if c = Char.ofNat 9 then ['\\', 't']
  else if c = Char.ofNat 10 then ['\\', 'n']
  else if c = Char.ofNat 12 then ['\\', 'f']
  else if c = Char.ofNat 13 then ['\\', 'r']
  else if c.toNat < 32 then ['\\', 'u', '0', '0', hexDigit (c.toNat / 16), hexDigit (c.toNat % 16)]
  else [c]

/-- JSON escape of a string body. -/
def jsonEscape (l : JStr) : JStr := l.flatMap escChar

/-- A JSON string literal: quote, escaped body, quote. -/
def jsonStr (l : JStr) : JStr := ('"' :: jsonEscape l) ++ ['"']

/-- Serialized form of the `type` field. -/
def typeStr : BmType → JStr
  | BmType.BOOKMARK => str "BOOKMARK"
  | BmType.FOLDER => str "FOLDER"

/-- JSON serialization of one bookmark record (`JSON.stringify(bookmark)`):
keys in declaration order; `customImage: undefined` is omitted;
`parentId: null` serializes as `null`. -/
def stringifyBookmark (b : Bookmark) : JStr :=
  str "\x7b\"id\":" ++ jsonStr b.id ++
  str ",\"type\":" ++ jsonStr (typeStr b.type) ++
  str ",\"parentId\":" ++ (match b.parentId with | none => str "null" | some p => jsonStr p) ++
  str ",\"pinned\":" ++ (if b.pinned then str "true" else str "false") ++
  str ",\"isLocal\":" ++ (if b.isLocal then str "true" else str "false") ++
  (match b.customImage with | none => [] | some s => str ",\"customImage\":" ++ jsonStr s) ++
  str "\x7d"

/-- Join serialized array elements with commas. -/
def joinComma : List JStr → JStr
  | [] => []
  | [s] => s
  | s :: rest => s ++ str "," ++ joinComma rest

/-- JSON serialization of a bookmark array (`JSON.stringify(list)`). -/
def stringifyBookmarks (l : List Bookmark) : JStr :=
  str "[" ++ joinComma (l.map stringifyBookmark) ++ str "]"

/-- JS `String.prototype.split(',')` on the character list: split at every
comma; `"".split(',')` is `[""]`. -/
def splitChars : JStr → List JStr
  | [] => [[]]
  | c :: cs =>
    if c = ',' then [] :: splitChars cs
    else
      match splitChars cs with
      | [] => [[c]]
      | h :: t => (c :: h) :: t

/-- Per-entry size ceiling: `MAX_BOOKMARK_SIZE = 1.5 * 1024 * 1024` (line 6). -/
def MAX_BOOKMARK_SIZE : Nat := 1572864

/-- The base64 payload used by `getBookmarkDataSize` (line 65):
`customImage.split(',')[1] || customImage` — the part after the first
comma, falling back to the whole string when it is missing or empty. -/
def base64Payload (img : JStr) : JStr :=
  match splitChars img with
  | _ :: s :: _ => if s.isEmpty then img else s
  | _ => img

/-- Serialized footprint of one bookmark (`getBookmarkDataSize`,
lines 62-82): with a (truthy) embedded image, the base64-decoded image
size `ceil(3*L/4)` plus the blob size of the JSON of the entry with
`customImage` removed; otherwise the blob size of the JSON of the whole
entry. -/
def getBookmarkDataSize (b : Bookmark) : Nat :=
  match b.customImage with
  | some img =>
    if img.isEmpty then blobSize (stringifyBookmark b)
    else
      let base64Data := base64Payload img
      let imageSize := (3 * jsLen base64Data + 3) / 4
      let jsonSize := blobSize (stringifyBookmark { b with customImage := none })
      imageSize + jsonSize
  | none => blobSize (stringifyBookmark b)

/-- Root/folder listing (`getCurrentFolderItems`, lines 51-60): at root
(`null`), all pinned entries followed by un-pinned root entries; inside a
folder, the un-pinned entries of that folder. -/
def getCurrentFolderItems (l : List Bookmark) (parentId : Option JStr) : List Bookmark :=
  let pinnedBookmarks := l.filter (fun b => b.pinned)
  let currentFolderBookmarks :=
    l.filter (fun b => decide (b.parentId = parentId) && !b.pinned)
  match parentId with
  | none => pinnedBookmarks ++ currentFolderBookmarks
  | some _ => currentFolderBookmarks

/-- Outcome of the external image load/re-encode step of
`compressImageData` (the `new Promise` with `Image`/canvas). -/
inductive LoadResult where
  | loaded (data : JStr)
  | loadError
  | rejected
deriving DecidableEq, Repr

/-- Oracle for the host image codec: `atob` gives the decoded byte count
of a base64 string (or `none` when `window.atob` throws), `load` gives
the outcome of the image load / canvas re-encode promise. -/
structure ImgCodec where
  atob : JStr → Option Nat
  load : JStr → LoadResult

/-- Image compression (`compressImageData`, lines 84-149).  Non-image data
and small GIFs are returned unchanged; an `atob` failure or a decoded
size above 3 MiB falls back to the original (the thrown error is caught
at line 145); an `img.onerror` resolves with the original; only a
rejected promise escapes to the caller (`Except.error`).
`compressB64` is the base64 payload handed to `atob` at line 94:
`imageData.split(',')[1]`, which JS coerces to `"undefined"` when the
index is out of range. -/
def compressB64 (imageData : JStr) : JStr :=
  match splitChars imageData with
  | _ :: s :: _ => s
  | _ => str "undefined"

/-- Image compression, continued: the branch structure of
`compressImageData` after the two data-URI checks. -/
def compressImageData (codec : ImgCodec) (imageData : JStr) : Except Unit JStr :=
  if (str "data:image").isPrefixOf imageData then
    if (str "data:image/gif").isPrefixOf imageData && decide (jsLen imageData < MAX_BOOKMARK_SIZE) then
      Except.ok imageData
    else
      match codec.atob (compressB64 imageData) with
      | none => Except.ok imageData
      | some len =>
        if len > 3 * 1024 * 1024 then Except.ok imageData
        else
          match codec.load imageData with
          | LoadResult.loaded s => Except.ok s
          | LoadResult.loadError => Except.ok imageData
          | LoadResult.rejected => Except.error ()
  else Except.ok imageData

/-- Storage preparation (`prepareBookmarkForStorage`, lines 151-170):
marks the entry local; compresses a (truthy) image longer than 50000
characters; on a compression failure emits a warning (the returned
`Bool`) and drops the image for `BOOKMARK`-typed entries while keeping
the original otherwise. -/
def prepareBookmarkForStorage (codec : ImgCodec) (b : Bookmark) : Bookmark × Bool :=
  match b.customImage with
  | some img =>
    if jsLen img > 50000 then
      match compressImageData codec img with
      | Except.ok s => ({ b with isLocal := true, customImage := some s }, false)
      | Except.error _ =>
        if b.type = BmType.BOOKMARK then ({ b with isLocal := true, customImage := none }, true)
        else ({ b with isLocal := true }, true)
    else ({ b with isLocal := true }, false)
  | none => ({ b with isLocal := true }, false)

/-- How a call to `addBookmark` ended: appended and persisted (`ok`),
aborted at the per-entry size check (`errTooLarge`, line 179), or
aborted at the aggregate 5 MiB check (`errAggregate`, line 191). -/
inductive AddOutcome where
  | ok
  | errTooLarge
  | errAggregate
deriving DecidableEq, Repr

/-- Per-entry size ceiling chosen by `addBookmark` (lines 176-177):
1.5 x `MAX_BOOKMARK_SIZE` for a GIF data URI, else `MAX_BOOKMARK_SIZE`. -/
def sizeLimitFor (b : Bookmark) : Nat :=
  let isGif := match b.customImage with
    | some img => (str "data:image/gif").isPrefixOf img
    | none => false
  if isGif then 3 * MAX_BOOKMARK_SIZE / 2 else MAX_BOOKMARK_SIZE

/-- Adding a bookmark (`addBookmark`, lines 172-209).  Aborts when the
entry footprint exceeds its ceiling; otherwise prepares the entry,
appends it to a local copy of the sequence, aborts (without touching the
in-memory sequence or storage) when the serialized local entries exceed
5 MiB, and otherwise commits the new sequence and persists its local
subset. -/
def addBookmark (st : StoreState) (codec : ImgCodec) (bookmark : Bookmark) :
    StoreState × AddOutcome :=
  if getBookmarkDataSize bookmark > sizeLimitFor bookmark then (st, AddOutcome.errTooLarge)
  else if jsLen (stringifyBookmarks
      ((st.bookmarks ++ [(prepareBookmarkForStorage codec bookmark).1]).filter
        (fun b => b.isLocal))) > 5 * 1024 * 1024 then
    (st, AddOutcome.errAggregate)
  else
    ({ st with
        bookmarks := st.bookmarks ++ [(prepareBookmarkForStorage codec bookmark).1],
        storedBookmarks :=
          (st.bookmarks ++ [(prepareBookmarkForStorage codec bookmark).1]).filter
            (fun b => b.isLocal) },
      AddOutcome.ok)

/-- The save-on-change effect (lines 39-49): when some entry is local,
persist the local subset; otherwise do not write. -/
def saveBookmarksEffect (st : StoreState) : StoreState :=
  if st.bookmarks.any (fun b => b.isLocal) then
    { st with storedBookmarks := st.bookmarks.filter (fun b => b.isLocal) }
  else st

/-- Termination measure for the descendant traversal: the number of
entry ids not yet in the visited set (the parent id counts as visited,
matching `visited.add(parentId)` at line 212). -/
def nestMeasure (l : List Bookmark) (parentId : JStr) (visited : List JStr) : Nat :=
  ((l.map (fun b => b.id)).toFinset \ (parentId :: visited).toFinset).card

/-- Descendant traversal (`getNestedItems`, lines 211-228): for every
child of `parentId`, push its id and, when it is a folder not yet on the
visited path, recursively push its descendants (each recursive branch
gets its own copy of the visited set, `new Set(visited)`). -/
def getNestedItems (l : List Bookmark) (parentId : JStr) (visited : List JStr) : List JStr :=
  ((l.filter (fun b => decide (b.parentId = some parentId))).attach.map
    (fun c =>
      c.1.id ::
        (if h : c.1.type = BmType.FOLDER ∧ c.1.id ∉ parentId :: visited then
          getNestedItems l c.1.id (parentId :: visited)
        else []))).flatten
termination_by nestMeasure l parentId visited
decreasing_by
  unfold nestMeasure
  apply Finset.card_lt_card
  rw [Finset.ssubset_iff_of_subset]
  · refine ⟨c.1.id, ?_, ?_⟩
    · rw [Finset.mem_sdiff]
      constructor
      · rw [List.mem_toFinset, List.mem_map]
        exact ⟨c.1, (List.mem_filter.mp c.2).1, rfl⟩
      · rw [List.mem_toFinset]
        exact h.2
    · simp
  · apply Finset.sdiff_subset_sdiff (le_refl _)
    intro x hx
    simp only [List.toFinset_cons, Finset.mem_insert] at hx ⊢
    exact Or.inr hx

/-- The ids removed by `deleteBookmark` (lines 234-239): the target id,
plus the traversed descendants when the found entry is a folder. -/
def itemsToDelete (st : StoreState) (id : JStr) (btd : Bookmark) : List JStr :=
  if btd.type = BmType.FOLDER then id :: getNestedItems st.bookmarks id [] else [id]

/-- Deleting a bookmark (`deleteBookmark`, lines 230-250): no-op when the
id is unknown; for a folder, the target plus its traversed descendants
are removed; the remaining local subset is persisted and the removed ids
are appended to the `deletedBookmarkIds` ledger. -/
def deleteBookmark (st : StoreState) (id : JStr) : StoreState :=
  match st.bookmarks.find? (fun b => decide (b.id = id)) with
  | none => st
  | some btd =>
    { bookmarks := st.bookmarks.filter (fun b => decide (b.id ∉ itemsToDelete st id btd)),
      storedBookmarks :=
        (st.bookmarks.filter (fun b => decide (b.id ∉ itemsToDelete st id btd))).filter
          (fun b => b.isLocal),
      deletedBookmarkIds := st.deletedBookmarkIds ++ itemsToDelete st id btd }

/-- Fuel-bounded version of the descendant traversal: `none` means the
recursion depth exceeded the fuel.  Used to state termination on
arbitrary (also cyclic) `parentId` graphs. -/
def getNestedItemsF (l : List Bookmark) (fuel : Nat) (parentId : JStr) (visited : List JStr) :
    Option (List JStr) :=
  match fuel with
  | 0 => none
  | f + 1 =>
    (l.filter (fun b => decide (b.parentId = some parentId))).foldr
      (fun c acc =>
        match
          (if c.type = BmType.FOLDER ∧ c.id ∉ parentId :: visited then
            getNestedItemsF l f c.id (parentId :: visited)
          else some []), acc with
        | some nested, some rest => some ((c.id :: nested) ++ rest)
        | _, _ => none)
      (some [])

/-- Example folder with a `BOOKMARK`-typed child that itself has a child:
the grandchild is linked to the folder only through a non-folder entry. -/
def ceF : Bookmark := ⟨str "f", BmType.FOLDER, none, false, true, none⟩

/-- Bookmark-typed child of `ceF`. -/
def ceX : Bookmark := ⟨str "x", BmType.BOOKMARK, some (str "f"), false, true, none⟩

/-- Entry whose parent chain reaches `ceF` through the bookmark `ceX`. -/
def ceB : Bookmark := ⟨str "b", BmType.BOOKMARK, some (str "x"), false, true, none⟩

/-- State for the folder-cascade counterexample. -/
def ceState : StoreState := ⟨[ceF, ceX, ceB], [], []⟩

/-- Example folder for the cascade witness. -/
def wF : Bookmark := ⟨str "f", BmType.FOLDER, none, false, true, none⟩

/-- Folder child of `wF`. -/
def wC1 : Bookmark := ⟨str "c1", BmType.FOLDER, some (str "f"), false, true, none⟩

/-- Bookmark grandchild of `wF` through `wC1`. -/
def wC2 : Bookmark := ⟨str "c2", BmType.BOOKMARK, some (str "c1"), false, true, none⟩

/-- Root-level bookmark unrelated to `wF`. -/
def wD : Bookmark := ⟨str "d", BmType.BOOKMARK, none, false, true, none⟩

/-- State for the cascade witness. -/
def wState : StoreState := ⟨[wF, wC1, wC2, wD], [], []⟩

/-- Bookmark-typed deletion target. -/
def wA : Bookmark := ⟨str "a", BmType.BOOKMARK, none, false, true, none⟩

/-- Entry referencing `wA` as its parent (left behind as an orphan). -/
def wCh : Bookmark := ⟨str "c", BmType.BOOKMARK, some (str "a"), false, true, none⟩

/-- State for the non-folder deletion witness. -/
def wState10 : StoreState := ⟨[wA, wCh], [], []⟩

/-- Codec whose `atob` always throws (compression falls back to the
original image). -/
def codecNoAtob : ImgCodec := ⟨fun _ => none, fun _ => LoadResult.loadError⟩

/-- Codec whose image-load promise rejects (compression failure reaches
`prepareBookmarkForStorage`). -/
def codecReject : ImgCodec := ⟨fun _ => some 0, fun _ => LoadResult.rejected⟩

/-- A 6,000,000-character embedded image (for the aggregate 5 MiB check). -/
def bigImage : JStr := repA 6000000

/-- A local entry already holding `bigImage` (never size-checked itself). -/
def bigBookmark : Bookmark := ⟨str "big", BmType.BOOKMARK, none, false, true, some bigImage⟩

/-- State whose serialized local entries already exceed 5 MiB. -/
def bigState : StoreState := ⟨[bigBookmark], [bigBookmark], []⟩

/-- Small image-free entry added on top of `bigState`. -/
def newSmall : Bookmark := ⟨str "new", BmType.BOOKMARK, none, false, true, none⟩

/-- GIF data URI with a 2,200,000-character payload: decoded size
1,650,000 bytes, over the base ceiling but under 1.5 times it. -/
def gifImage : JStr := str "data:image/gif;base64" ++ ',' :: repA 2200000

/-- PNG data URI with the same payload length as `gifImage`. -/
def pngImage : JStr := str "data:image/png;base64" ++ ',' :: repA 2200000

/-- Animated-image entry between the base and the extended ceiling. -/
def gifBookmark : Bookmark := ⟨str "g", BmType.BOOKMARK, none, false, true, some gifImage⟩

/-- Non-animated entry with the same footprint as `gifBookmark`. -/
def pngBookmark : Bookmark := ⟨str "p", BmType.BOOKMARK, none, false, true, some pngImage⟩

/-- Empty store. -/
def emptyState : StoreState := ⟨[], [], []⟩

/-- PNG data URI just over the 50,000-character inline threshold. -/
def midImage : JStr := str "data:image/png;base64" ++ ',' :: repA 50000

/-- Bookmark-typed entry carrying `midImage`. -/
def midBookmark : Bookmark := ⟨str "m", BmType.BOOKMARK, none, false, true, some midImage⟩

/-- Small entry with a short embedded image (payload `QUJD`). -/
def smallImgBookmark : Bookmark :=
  ⟨str "s", BmType.BOOKMARK, none, false, true, some (str "data:image/png;base64,QUJD")⟩

/-- The big entry with its image removed. -/
def bigNoImage : Bookmark := ⟨str "big", BmType.BOOKMARK, none, false, true, none⟩

/-- The GIF entry with its image removed. -/
def gifNoImage : Bookmark := ⟨str "g", BmType.BOOKMARK, none, false, true, none⟩

/-- A parent chain in the sequence `l`: `chainFrom l inter r ch` holds when
`ch = [c1, ..., ck]` with `c1.parentId = r`, every `c(i+1).parentId = ci.id`,
every entry in `l`, and every link except possibly the last satisfying
`inter` (the condition under which the traversal recurses). -/
def chainFrom (l : List Bookmark) (inter : Bookmark → Prop) : JStr → List Bookmark → Prop
  | _, [] => False
  | r, [c] => c ∈ l ∧ c.parentId = some r
  | r, c :: c2 :: rest => c ∈ l ∧ c.parentId = some r ∧ inter c ∧ chainFrom l inter c.id (c2 :: rest)

/-- The entry `b` is reachable from the id `r` along a parent chain whose
intermediate entries satisfy `inter`. -/
def descendsVia (l : List Bookmark) (inter : Bookmark → Prop) (r : JStr) (b : Bookmark) : Prop :=
  ∃ ch, chainFrom l inter r ch ∧ ch.getLast? = some b

/-- Descent through `FOLDER`-typed intermediate entries: exactly the
closure the traversal of `deleteBookmark` computes. -/
def DescFolder (l : List Bookmark) (r : JStr) (b : Bookmark) : Prop :=
  descendsVia l (fun c => c.type = BmType.FOLDER) r b

/-- Unrestricted descent along `parentId` edges (what the claim literally
quantifies over). -/
def DescAny (l : List Bookmark) (r : JStr) (b : Bookmark) : Prop :=
  descendsVia l (fun _ => True) r b

/-- Auxiliary cardinality bound: recursing into an unvisited folder child
strictly shrinks the termination measure. -/
theorem nestMeasure_lt {l : List Bookmark} {c : Bookmark} {pid : JStr} {visited : List JStr}
    (hc : c ∈ l) (hnv : c.id ∉ pid :: visited) :
    nestMeasure l c.id (pid :: visited) < nestMeasure l pid visited := by
  unfold nestMeasure
  apply Finset.card_lt_card
  rw [Finset.ssubset_iff_of_subset]
  · refine ⟨c.id, ?_, ?_⟩
    · rw [Finset.mem_sdiff]
      constructor
      · rw [List.mem_toFinset, List.mem_map]
        exact ⟨c, hc, rfl⟩
      · rw [List.mem_toFinset]
        exact hnv
    · simp
  · apply Finset.sdiff_subset_sdiff (le_refl _)
    intro x hx
    simp only [List.toFinset_cons, Finset.mem_insert] at hx ⊢
    exact Or.inr hx

/-- JS length is additive over concatenation. -/
theorem jsLen_append (a b : JStr) : jsLen (a ++ b) = jsLen a + jsLen b := by
  simp [jsLen]

/-- JS length of a cons. -/
theorem jsLen_cons (c : Char) (l : JStr) : jsLen (c :: l) = charW c + jsLen l := by
  simp [jsLen]

/-- JS length of an ASCII `a`-block. -/
theorem jsLen_repA (n : Nat) : jsLen (repA n) = n := by
  have h : charW 'a' = 1 := by decide
  simp [jsLen, repA, List.map_replicate, h, List.sum_const_nat]

/-- The escape of the character `a` is itself. -/
theorem escChar_a : escChar 'a' = ['a'] := by decide

/-- JSON escaping is additive over concatenation. -/
theorem jsonEscape_append (a b : JStr) : jsonEscape (a ++ b) = jsonEscape a ++ jsonEscape b := by
  simp [jsonEscape]

/-- JSON escaping leaves an `a`-block unchanged. -/
theorem jsonEscape_repA (n : Nat) : jsonEscape (repA n) = repA n := by
  induction n with
  | zero => rfl
  | succ n ih =>
    simp only [repA, List.replicate_succ] at ih ⊢
    simp only [jsonEscape, List.flatMap_cons, escChar_a] at ih ⊢
    rw [ih]
    rfl

/-- A prefix of `a` is a prefix of `a ++ b`. -/
theorem isPrefixOf_append_of {p a : JStr} (b : JStr) (h : p.isPrefixOf a = true) :
    p.isPrefixOf (a ++ b) = true := by
  rw [List.isPrefixOf_iff_prefix] at h ⊢
  exact h.trans (a.prefix_append b)

/-- When the candidate prefix is no longer than `a`, being a prefix of
`a ++ b` is the same as being a prefix of `a`. -/
theorem isPrefixOf_append_left {p a : JStr} (b : JStr) (hlen : p.length ≤ a.length) :
    p.isPrefixOf (a ++ b) = p.isPrefixOf a := by
  rw [Bool.eq_iff_iff, List.isPrefixOf_iff_prefix, List.isPrefixOf_iff_prefix]
  constructor
  · intro h
    have he := List.prefix_iff_eq_take.mp h
    rw [List.take_append_eq_append_take, Nat.sub_eq_zero_of_le hlen, List.take_zero,
      List.append_nil] at he
    exact List.prefix_iff_eq_take.mpr he
  · intro h
    exact h.trans (a.prefix_append b)

/-- The comma character is not in an `a`-block. -/
theorem comma_not_mem_repA (n : Nat) : ',' ∉ repA n := by
  intro h
  have := List.eq_of_mem_replicate h
  simp at this

/-- Splitting a comma-free string gives the string itself. -/
theorem splitChars_no_comma (l : JStr) (h : ',' ∉ l) : splitChars l = [l] := by
  induction l with
  | nil => rfl
  | cons c cs ih =>
    have hc : ¬ c = ',' := fun e => h (e ▸ List.mem_cons_self c cs)
    have hcs : ',' ∉ cs := fun m => h (List.mem_cons_of_mem _ m)
    simp [splitChars, hc, ih hcs]

/-- Splitting a string with exactly one comma gives the two parts. -/
theorem splitChars_one_comma (a bpart : JStr) (ha : ',' ∉ a) (hb : ',' ∉ bpart) :
    splitChars (a ++ ',' :: bpart) = [a, bpart] := by
  induction a with
  | nil => simp [splitChars, splitChars_no_comma bpart hb]
  | cons c cs ih =>
    have hc : ¬ c = ',' := fun e => ha (e ▸ List.mem_cons_self c cs)
    have hcs : ',' ∉ cs := fun m => ha (List.mem_cons_of_mem _ m)
    simp [splitChars, hc, ih hcs]

/-- The base64 payload of a one-comma data URI is the part after the comma. -/
theorem base64Payload_data_uri (pre payload : JStr) (hpre : ',' ∉ pre) (hp : ',' ∉ payload)
    (hne : payload ≠ []) : base64Payload (pre ++ ',' :: payload) = payload := by
  rw [base64Payload, splitChars_one_comma pre payload hpre hp]
  have : payload.isEmpty = false := by
    cases payload with
    | nil => exact absurd rfl hne
    | cons x xs => rfl
  simp [this]

/-- The base64 payload of a comma-free string is the string itself. -/
theorem base64Payload_no_comma (l : JStr) (h : ',' ∉ l) : base64Payload l = l := by
  rw [base64Payload, splitChars_no_comma l h]

/-- Flatten-of-attach-map reduces to flatten-of-map. -/
theorem map_attach_flatten {α β : Type} (xs : List α) (g : α → List β) :
    (xs.attach.map (fun c => g c.1)).flatten = (xs.map g).flatten := by
  rw [List.attach_map_val xs g]

/-- One-step unfolding of the descendant traversal. -/
theorem getNestedItems_eq (l : List Bookmark) (pid : JStr) (V : List JStr) :
    getNestedItems l pid V =
      ((l.filter (fun b => decide (b.parentId = some pid))).map
        (fun c => c.id ::
          (if c.type = BmType.FOLDER ∧ c.id ∉ pid :: V then
            getNestedItems l c.id (pid :: V)
          else []))).flatten := by
  rw [getNestedItems]
  simp only [dite_eq_ite]
  exact map_attach_flatten (l.filter (fun b => decide (b.parentId = some pid)))
    (fun c => c.id ::
      (if c.type = BmType.FOLDER ∧ c.id ∉ pid :: V then getNestedItems l c.id (pid :: V)
       else []))

/-- Every direct child of `pid` is collected by the traversal. -/
theorem mem_getNestedItems_child {l : List Bookmark} {c : Bookmark} {pid : JStr} {V : List JStr}
    (hc : c ∈ l) (hp : c.parentId = some pid) : c.id ∈ getNestedItems l pid V := by
  rw [getNestedItems_eq]
  refine List.mem_flatten.mpr ⟨_, List.mem_map.mpr ⟨c, ?_, rfl⟩, List.mem_cons_self _ _⟩
  exact List.mem_filter.mpr ⟨hc, by simp [hp]⟩

/-- The traversal of an unvisited folder child is contained in the
traversal of the parent. -/
theorem getNestedItems_subset_of_child {l : List Bookmark} {c : Bookmark} {pid : JStr}
    {V : List JStr} (hc : c ∈ l) (hp : c.parentId = some pid) (ht : c.type = BmType.FOLDER)
    (hnv : c.id ∉ pid :: V) :
    getNestedItems l c.id (pid :: V) ⊆ getNestedItems l pid V := by
  intro x hx
  rw [getNestedItems_eq l pid V]
  apply List.mem_flatten.mpr
  refine ⟨c.id :: getNestedItems l c.id (pid :: V),
    List.mem_map.mpr ⟨c, List.mem_filter.mpr ⟨hc, by simp [hp]⟩, ?_⟩,
    List.mem_cons_of_mem _ hx⟩
  rw [if_pos ⟨ht, hnv⟩]

/-- A chain that revisits the root id `r` can be shortened to a chain
from `r` with the same last entry (or its last entry already has id `r`). -/
theorem chainFrom_truncate {l : List Bookmark} {inter : Bookmark → Prop} :
    ∀ (ch : List Bookmark) (r0 r : JStr), chainFrom l inter r0 ch →
    r ∈ ch.map (fun b => b.id) →
    (∃ b, ch.getLast? = some b ∧ b.id = r) ∨
    ∃ ch', ch'.length < ch.length ∧ chainFrom l inter r ch' ∧
      ch'.getLast? = ch.getLast? ∧ ch' ⊆ ch := by
  intro ch
  induction ch with
  | nil => intro r0 r h _; exact h.elim
  | cons c rest ih =>
    intro r0 r hch hr
    cases rest with
    | nil =>
      left
      simp only [List.map_cons, List.map_nil, List.mem_singleton] at hr
      exact ⟨c, by simp, hr.symm⟩
    | cons d rest' =>
      obtain ⟨hcl, hcp, hci, hrest⟩ := hch
      by_cases hcr : c.id = r
      · right
        refine ⟨d :: rest', by simp, hcr ▸ hrest, ?_, ?_⟩
        · rw [List.getLast?_cons_cons]
        · exact fun x hx => List.mem_cons_of_mem _ hx
      · have hr' : r ∈ (d :: rest').map (fun b => b.id) := by
          simp only [List.map_cons, List.mem_cons] at hr
          rcases hr with h1 | h2
          · exact absurd h1.symm hcr
          · simpa using h2
        rcases ih c.id r hrest hr' with ⟨b, hb1, hb2⟩ | ⟨ch', hlen, hc', hlast, hsub⟩
        · left
          exact ⟨b, by rw [List.getLast?_cons_cons]; exact hb1, hb2⟩
        · right
          refine ⟨ch', ?_, hc', ?_, ?_⟩
          · exact Nat.lt_trans hlen (by simp)
          · rw [List.getLast?_cons_cons]; exact hlast
          · exact fun x hx => List.mem_cons_of_mem _ (hsub hx)

/-- Completeness of the cycle-guarded traversal: the last entry of every
folder chain from `r` that avoids the visited set is collected (or is the
root itself). -/
theorem chain_complete {l : List Bookmark} :
    ∀ (n : Nat) (ch : List Bookmark) (r : JStr) (V : List JStr) (b : Bookmark),
      ch.length ≤ n → chainFrom l (fun c => c.type = BmType.FOLDER) r ch →
      (∀ x ∈ ch.map (fun bb => bb.id), x ∉ V) → ch.getLast? = some b →
      b.id = r ∨ b.id ∈ getNestedItems l r V := by
  intro n
  induction n with
  | zero =>
    intro ch r V b hlen hch _ _
    cases ch with
    | nil => exact hch.elim
    | cons c rest => simp at hlen
  | succ n ih =>
    intro ch r V b hlen hch hV hlast
    cases ch with
    | nil => exact hch.elim
    | cons c rest =>
      cases rest with
      | nil =>
        obtain ⟨hcl, hcp⟩ := hch
        simp only [List.getLast?_singleton, Option.some_inj] at hlast
        right
        exact hlast ▸ mem_getNestedItems_child hcl hcp
      | cons d rest' =>
        obtain ⟨hcl, hcp, hcf, hrest⟩ := hch
        rw [List.getLast?_cons_cons] at hlast
        have hlen' : (d :: rest').length ≤ n := by
          simp only [List.length_cons] at hlen ⊢
          omega
        by_cases hcr : c.id = r
        · refine ih (d :: rest') r V b hlen' (hcr ▸ hrest) ?_ hlast
          intro x hx
          exact hV x (by simp only [List.map_cons, List.mem_cons]; right; simpa using hx)
        · by_cases hrt : r ∈ (d :: rest').map (fun bb => bb.id)
          · rcases chainFrom_truncate (d :: rest') c.id r hrest hrt with
              ⟨b', hb'1, hb'2⟩ | ⟨ch', hlen2, hch2, hlast2, hsub⟩
            · left
              rw [hlast] at hb'1
              have heq : b = b' := Option.some_inj.mp hb'1
              rw [heq]
              exact hb'2
            · refine ih ch' r V b ?_ hch2 ?_ (by rw [hlast2]; exact hlast)
              · simp only [List.length_cons] at hlen hlen2
                omega
              · intro x hx
                obtain ⟨bb, hbb, rfl⟩ := List.mem_map.mp hx
                refine hV bb.id ?_
                have hm : bb.id ∈ (d :: rest').map (fun bb => bb.id) :=
                  List.mem_map.mpr ⟨bb, hsub hbb, rfl⟩
                simp only [List.map_cons, List.mem_cons]
                right
                simpa using hm
          · have hcidV : c.id ∉ V := hV c.id (by simp)
            have hVr : ∀ x ∈ (d :: rest').map (fun bb => bb.id), x ∉ r :: V := by
              intro x hx
              rw [List.mem_cons]
              push_neg
              refine ⟨fun he => hrt (he ▸ hx), ?_⟩
              exact hV x (by simp only [List.map_cons, List.mem_cons]; right; simpa using hx)
            rcases ih (d :: rest') c.id (r :: V) b hlen' hrest hVr hlast with h1 | h2
            · right
              rw [h1]
              exact mem_getNestedItems_child hcl hcp
            · right
              refine getNestedItems_subset_of_child hcl hcp hcf ?_ h2
              rw [List.mem_cons]
              push_neg
              exact ⟨hcr, hcidV⟩

/-- Folding the fueled child step equals the flatten of the pure child
step, when every child's fueled call already agrees with the pure call. -/
theorem foldr_opt_flatten (fOpt : Bookmark → Option (List JStr)) (fPure : Bookmark → List JStr) :
    ∀ (cs : List Bookmark), (∀ c ∈ cs, fOpt c = some (fPure c)) →
      cs.foldr
        (fun c acc =>
          match fOpt c, acc with
          | some nested, some rest => some ((c.id :: nested) ++ rest)
          | _, _ => none)
        (some []) =
      some ((cs.map (fun c => c.id :: fPure c)).flatten) := by
  intro cs h
  induction cs with
  | nil => rfl
  | cons c cs ih =>
    rw [List.foldr_cons, ih (fun x hx => h x (List.mem_cons_of_mem _ hx)),
      h c (List.mem_cons_self _ _)]
    simp

/-- With fuel above the measure, the fueled traversal computes the total
traversal. -/
theorem getNestedItemsF_eq_of_lt {l : List Bookmark} :
    ∀ (fuel : Nat) (pid : JStr) (V : List JStr), nestMeasure l pid V < fuel →
      getNestedItemsF l fuel pid V = some (getNestedItems l pid V) := by
  intro fuel
  induction fuel with
  | zero => intro pid V h; exact absurd h (Nat.not_lt_zero _)
  | succ f ih =>
    intro pid V h
    rw [getNestedItems_eq]
    show (l.filter (fun b => decide (b.parentId = some pid))).foldr _ (some []) = _
    exact foldr_opt_flatten
      (fun c =>
        if c.type = BmType.FOLDER ∧ c.id ∉ pid :: V then getNestedItemsF l f c.id (pid :: V)
        else some [])
      (fun c =>
        if c.type = BmType.FOLDER ∧ c.id ∉ pid :: V then getNestedItems l c.id (pid :: V)
        else [])
      (l.filter (fun b => decide (b.parentId = some pid)))
      (by
        intro c hc
        by_cases hcond : c.type = BmType.FOLDER ∧ c.id ∉ pid :: V
        · simp only [if_pos hcond]
          apply ih
          have hlt := @nestMeasure_lt l c pid V (List.mem_filter.mp hc).1 hcond.2
          omega
        · simp only [if_neg hcond])

/-- With unique ids, looking up a member bookmark by its id finds it. -/
theorem find?_id_of_nodup {l : List Bookmark} {f : Bookmark}
    (hnd : (l.map (fun b => b.id)).Nodup) (hf : f ∈ l) :
    l.find? (fun b => decide (b.id = f.id)) = some f := by
  induction l with
  | nil => exact absurd hf (List.not_mem_nil f)
  | cons hd t ih =>
    rw [List.map_cons, List.nodup_cons] at hnd
    rcases List.mem_cons.mp hf with rfl | hft
    · rw [List.find?_cons_of_pos]
      simp
    · by_cases hid : hd.id = f.id
      · exact absurd (hid ▸ List.mem_map.mpr ⟨f, hft, rfl⟩) hnd.1
      · rw [List.find?_cons_of_neg _ (by simp [hid])]
        exact ih hnd.2 hft

/-- Compression leaves non-image data unchanged (line 85). -/
theorem compress_skip_non_image (codec : ImgCodec) (img : JStr)
    (h : (str "data:image").isPrefixOf img = false) :
    compressImageData codec img = Except.ok img := by
  unfold compressImageData
  rw [h]
  simp

/-- Compression skips a GIF already under the per-entry ceiling (line 89). -/
theorem compress_skip_small_gif (codec : ImgCodec) (img : JStr)
    (h1 : (str "data:image").isPrefixOf img = true)
    (h2 : ((str "data:image/gif").isPrefixOf img &&
      decide (jsLen img < MAX_BOOKMARK_SIZE)) = true) :
    compressImageData codec img = Except.ok img := by
  unfold compressImageData
  rw [h1, h2]
  simp

/-- When `atob` throws, compression falls back to the original (line 145). -/
theorem compress_atob_none (codec : ImgCodec) (img : JStr)
    (h1 : (str "data:image").isPrefixOf img = true)
    (h2 : ((str "data:image/gif").isPrefixOf img &&
      decide (jsLen img < MAX_BOOKMARK_SIZE)) = false)
    (h3 : codec.atob (compressB64 img) = none) :
    compressImageData codec img = Except.ok img := by
  unfold compressImageData
  rw [h1, h2, h3]
  simp

/-- With a decoded size within the 3 MiB guard, compression is decided by
the image-load outcome (lines 102-144). -/
theorem compress_decoded (codec : ImgCodec) (img : JStr) (len : Nat)
    (h1 : (str "data:image").isPrefixOf img = true)
    (h2 : ((str "data:image/gif").isPrefixOf img &&
      decide (jsLen img < MAX_BOOKMARK_SIZE)) = false)
    (h3 : codec.atob (compressB64 img) = some len) (h4 : ¬ len > 3 * 1024 * 1024) :
    compressImageData codec img =
      match codec.load img with
      | LoadResult.loaded s => Except.ok s
      | LoadResult.loadError => Except.ok img
      | LoadResult.rejected => Except.error () := by
  unfold compressImageData
  rw [h1, h2, h3]
  simp [h4]

/-- Preparation stores the compressed image when compression succeeds. -/
theorem prepare_of_compress_ok (codec : ImgCodec) (b : Bookmark) (img s : JStr)
    (h : b.customImage = some img) (h50 : jsLen img > 50000)
    (hc : compressImageData codec img = Except.ok s) :
    prepareBookmarkForStorage codec b =
      ({ b with isLocal := true, customImage := some s }, false) := by
  unfold prepareBookmarkForStorage
  rw [h]
  simp only [if_pos h50, hc]

/-- Preparation on a compression failure: warn, and drop the image only
for `BOOKMARK`-typed entries (lines 159-166). -/
theorem prepare_of_compress_error (codec : ImgCodec) (b : Bookmark) (img : JStr)
    (h : b.customImage = some img) (h50 : jsLen img > 50000)
    (hc : compressImageData codec img = Except.error ()) :
    prepareBookmarkForStorage codec b =
      (if b.type = BmType.BOOKMARK then { b with isLocal := true, customImage := none }
       else { b with isLocal := true }, true) := by
  unfold prepareBookmarkForStorage
  rw [h]
  simp only [if_pos h50, hc]
  split <;> rfl

/-- Preparation leaves an image at or below the 50,000-character inline
threshold untouched. -/
theorem prepare_small (codec : ImgCodec) (b : Bookmark) (img : JStr)
    (h : b.customImage = some img) (h50 : ¬ jsLen img > 50000) :
    prepareBookmarkForStorage codec b = ({ b with isLocal := true }, false) := by
  unfold prepareBookmarkForStorage
  rw [h]
  simp only [if_neg h50]

/-- Preparation of an image-free entry only marks it local. -/
theorem prepare_none (codec : ImgCodec) (b : Bookmark) (h : b.customImage = none) :
    prepareBookmarkForStorage codec b = ({ b with isLocal := true }, false) := by
  unfold prepareBookmarkForStorage
  rw [h]

/-- A concatenation with a non-empty left part is non-empty. -/
theorem isEmpty_append_left {a : JStr} (b : JStr) (h : a.isEmpty = false) :
    (a ++ b).isEmpty = false := by
  cases a with
  | nil => simp [List.isEmpty] at h
  | cons c cs => rfl

/-- A positive-length `a`-block is non-empty. -/
theorem repA_ne_nil {n : Nat} (h : 0 < n) : repA n ≠ [] := by
  intro he
  have h2 := congrArg List.length he
  simp [repA] at h2
  omega

/-- Footprint of an entry with a non-empty embedded image: decoded image
bytes plus the blob size of the JSON without the image. -/
theorem getBookmarkDataSize_some (b : Bookmark) (img : JStr) (h : b.customImage = some img)
    (he : img.isEmpty = false) :
    getBookmarkDataSize b =
      (3 * jsLen (base64Payload img) + 3) / 4 +
        blobSize (stringifyBookmark { b with customImage := none }) := by
  unfold getBookmarkDataSize
  rw [h]
  simp only [he, Bool.false_eq_true, if_false]

/-- Footprint of an image-free entry: blob size of its JSON. -/
theorem getBookmarkDataSize_none (b : Bookmark) (h : b.customImage = none) :
    getBookmarkDataSize b = blobSize (stringifyBookmark b) := by
  unfold getBookmarkDataSize
  rw [h]

/-- Length of the example GIF data URI. -/
theorem jsLen_gifImage : jsLen gifImage = 2200022 := by
  rw [gifImage, jsLen_append, jsLen_cons, jsLen_repA]
  have h1 : jsLen (str "data:image/gif;base64") = 21 := by decide
  have h2 : charW ',' = 1 := by decide
  omega

/-- Length of the example PNG data URI. -/
theorem jsLen_pngImage : jsLen pngImage = 2200022 := by
  rw [pngImage, jsLen_append, jsLen_cons, jsLen_repA]
  have h1 : jsLen (str "data:image/png;base64") = 21 := by decide
  have h2 : charW ',' = 1 := by decide
  omega

/-- Payload of the example GIF data URI. -/
theorem base64Payload_gifImage : base64Payload gifImage = repA 2200000 := by
  rw [gifImage]
  exact base64Payload_data_uri _ _ (by decide) (comma_not_mem_repA _) (repA_ne_nil (by norm_num))

/-- Payload of the example PNG data URI. -/
theorem base64Payload_pngImage : base64Payload pngImage = repA 2200000 := by
  rw [pngImage]
  exact base64Payload_data_uri _ _ (by decide) (comma_not_mem_repA _) (repA_ne_nil (by norm_num))

/-- The example GIF data URI is non-empty. -/
theorem gifImage_not_empty : gifImage.isEmpty = false := by
  rw [gifImage]
  exact isEmpty_append_left _ (by decide)

/-- The example PNG data URI is non-empty. -/
theorem pngImage_not_empty : pngImage.isEmpty = false := by
  rw [pngImage]
  exact isEmpty_append_left _ (by decide)

/-- Footprint of the example GIF entry: 1,650,000 decoded image bytes
plus 74 JSON bytes. -/
theorem size_gifBookmark : getBookmarkDataSize gifBookmark = 1650074 := by
  rw [getBookmarkDataSize_some gifBookmark gifImage rfl gifImage_not_empty,
    base64Payload_gifImage, jsLen_repA]
  have hb : blobSize (stringifyBookmark { gifBookmark with customImage := none }) = 74 := by
    decide
  rw [hb]

/-- Footprint of the example PNG entry equals the GIF entry footprint. -/
theorem size_pngBookmark : getBookmarkDataSize pngBookmark = 1650074 := by
  rw [getBookmarkDataSize_some pngBookmark pngImage rfl pngImage_not_empty,
    base64Payload_pngImage, jsLen_repA]
  have hb : blobSize (stringifyBookmark { pngBookmark with customImage := none }) = 74 := by
    decide
  rw [hb]

/-- The example GIF data URI is recognized as a GIF. -/
theorem gif_isPrefixOf_gifImage : (str "data:image/gif").isPrefixOf gifImage = true := by
  rw [gifImage]
  exact isPrefixOf_append_of _ (by decide)

/-- The example PNG data URI is not recognized as a GIF. -/
theorem gif_isPrefixOf_pngImage : (str "data:image/gif").isPrefixOf pngImage = false := by
  rw [pngImage, isPrefixOf_append_left _ (by decide)]
  decide

/-- Ceiling of the example GIF entry: 1.5 x the base ceiling. -/
theorem sizeLimitFor_gifBookmark : sizeLimitFor gifBookmark = 2359296 := by
  unfold sizeLimitFor
  rw [show gifBookmark.customImage = some gifImage from rfl]
  simp only [gif_isPrefixOf_gifImage, if_true, MAX_BOOKMARK_SIZE]

/-- Ceiling of the example PNG entry: the base ceiling. -/
theorem sizeLimitFor_pngBookmark : sizeLimitFor pngBookmark = MAX_BOOKMARK_SIZE := by
  unfold sizeLimitFor
  rw [show pngBookmark.customImage = some pngImage from rfl]
  simp only [gif_isPrefixOf_pngImage, Bool.false_eq_true, if_false]

/-- `addBookmark` on the per-entry size failure path (lines 179-184). -/
theorem addBookmark_tooLarge (st : StoreState) (codec : ImgCodec) (b : Bookmark)
    (h : getBookmarkDataSize b > sizeLimitFor b) :
    addBookmark st codec b = (st, AddOutcome.errTooLarge) := by
  unfold addBookmark
  rw [if_pos h]

/-- `addBookmark` on the aggregate 5 MiB failure path (lines 189-196):
the returned state is the input state. -/
theorem addBookmark_aggregate (st : StoreState) (codec : ImgCodec) (b : Bookmark)
    (h1 : ¬ getBookmarkDataSize b > sizeLimitFor b)
    (h2 : jsLen (stringifyBookmarks
      ((st.bookmarks ++ [(prepareBookmarkForStorage codec b).1]).filter
        (fun x => x.isLocal))) > 5 * 1024 * 1024) :
    addBookmark st codec b = (st, AddOutcome.errAggregate) := by
  unfold addBookmark
  rw [if_neg h1, if_pos h2]

/-- `addBookmark` on the success path (lines 202-204). -/
theorem addBookmark_ok (st : StoreState) (codec : ImgCodec) (b : Bookmark)
    (h1 : ¬ getBookmarkDataSize b > sizeLimitFor b)
    (h2 : ¬ jsLen (stringifyBookmarks
      ((st.bookmarks ++ [(prepareBookmarkForStorage codec b).1]).filter
        (fun x => x.isLocal))) > 5 * 1024 * 1024) :
    addBookmark st codec b =
      ({ st with
          bookmarks := st.bookmarks ++ [(prepareBookmarkForStorage codec b).1],
          storedBookmarks :=
            (st.bookmarks ++ [(prepareBookmarkForStorage codec b).1]).filter
              (fun x => x.isLocal) },
        AddOutcome.ok) := by
  unfold addBookmark
  rw [if_neg h1, if_neg h2]

/-- `deleteBookmark` when the id is present. -/
theorem deleteBookmark_found (st : StoreState) (id : JStr) (btd : Bookmark)
    (h : st.bookmarks.find? (fun b => decide (b.id = id)) = some btd) :
    deleteBookmark st id =
      { bookmarks := st.bookmarks.filter (fun b => decide (b.id ∉ itemsToDelete st id btd)),
        storedBookmarks :=
          (st.bookmarks.filter (fun b => decide (b.id ∉ itemsToDelete st id btd))).filter
            (fun b => b.isLocal),
        deletedBookmarkIds := st.deletedBookmarkIds ++ itemsToDelete st id btd } := by
  unfold deleteBookmark
  rw [h]

/-- `deleteBookmark` is a no-op on an unknown id (line 232). -/
theorem deleteBookmark_notFound (st : StoreState) (id : JStr)
    (h : st.bookmarks.find? (fun b => decide (b.id = id)) = none) :
    deleteBookmark st id = st := by
  unfold deleteBookmark
  rw [h]

/-- The example GIF data URI is image data. -/
theorem dataImage_isPrefixOf_gifImage : (str "data:image").isPrefixOf gifImage = true := by
  rw [gifImage]
  exact isPrefixOf_append_of _ (by decide)

/-- The example GIF is too long for the small-GIF compression skip. -/
theorem gifCheck_gifImage :
    ((str "data:image/gif").isPrefixOf gifImage &&
      decide (jsLen gifImage < MAX_BOOKMARK_SIZE)) = false := by
  rw [jsLen_gifImage]
  simp [MAX_BOOKMARK_SIZE]

/-- Under the failing-`atob` codec, the example GIF is returned unchanged. -/
theorem compress_gifImage : compressImageData codecNoAtob gifImage = Except.ok gifImage :=
  compress_atob_none codecNoAtob gifImage dataImage_isPrefixOf_gifImage gifCheck_gifImage rfl

/-- Preparing the example GIF entry keeps it unchanged (it is already
local and compression falls back to the original). -/
theorem prep_gifBookmark :
    prepareBookmarkForStorage codecNoAtob gifBookmark = (gifBookmark, false) := by
  rw [prepare_of_compress_ok codecNoAtob gifBookmark gifImage gifImage rfl
    (by rw [jsLen_gifImage]; norm_num) compress_gifImage]
  rfl

/-- Length of the mid-size PNG data URI: just over the inline threshold. -/
theorem jsLen_midImage : jsLen midImage = 50022 := by
  rw [midImage, jsLen_append, jsLen_cons, jsLen_repA]
  have h1 : jsLen (str "data:image/png;base64") = 21 := by decide
  have h2 : charW ',' = 1 := by decide
  omega

/-- The mid-size PNG data URI is image data. -/
theorem dataImage_isPrefixOf_midImage : (str "data:image").isPrefixOf midImage = true := by
  rw [midImage]
  exact isPrefixOf_append_of _ (by decide)

/-- The mid-size PNG is not a GIF, so the skip does not apply. -/
theorem gifCheck_midImage :
    ((str "data:image/gif").isPrefixOf midImage &&
      decide (jsLen midImage < MAX_BOOKMARK_SIZE)) = false := by
  have h : (str "data:image/gif").isPrefixOf midImage = false := by
    rw [midImage, isPrefixOf_append_left _ (by decide)]
    decide
  rw [h]
  simp

/-- Under the rejecting codec, compressing the mid-size PNG fails. -/
theorem compress_midImage : compressImageData codecReject midImage = Except.error () := by
  rw [compress_decoded codecReject midImage 0 dataImage_isPrefixOf_midImage gifCheck_midImage
    rfl (by norm_num)]
  rfl

/-- Preparing the mid-size entry under the rejecting codec drops the
image (its type is `BOOKMARK`) and warns. -/
theorem prep_midBookmark :
    prepareBookmarkForStorage codecReject midBookmark =
      ({ midBookmark with isLocal := true, customImage := none }, true) := by
  rw [prepare_of_compress_error codecReject midBookmark midImage rfl
    (by rw [jsLen_midImage]; norm_num) compress_midImage]
  rfl

/-- JS length of the empty string. -/
theorem jsLen_nil : jsLen [] = 0 := rfl

/-- Length decomposition of a serialized entry with an embedded image:
the image contributes its escaped length plus the 17 characters of
`,"customImage":""`. -/
theorem jsLen_stringify_with_image (b bNoImg : Bookmark) (img : JStr)
    (h : b.customImage = some img) (hno : bNoImg = { b with customImage := none }) :
    jsLen (stringifyBookmark b) =
      jsLen (stringifyBookmark bNoImg) + 17 + jsLen (jsonEscape img) := by
  subst hno
  unfold stringifyBookmark
  rw [h]
  simp only [jsonStr, jsLen_append, jsLen_cons, jsLen_nil]
  have h1 : jsLen (str ",\"customImage\":") = 15 := by decide
  have h2 : charW '"' = 1 := by decide
  have h3 : jsLen ['"'] = 1 := by decide
  omega

/-- Length of a serialized singleton array. -/
theorem jsLen_stringifyBookmarks_one (b : Bookmark) :
    jsLen (stringifyBookmarks [b]) = 2 + jsLen (stringifyBookmark b) := by
  unfold stringifyBookmarks joinComma
  simp only [List.map_cons, List.map_nil, jsLen_append]
  have h1 : jsLen (str "[") = 1 := by decide
  have h2 : jsLen (str "]") = 1 := by decide
  omega

/-- Length of a serialized two-element array. -/
theorem jsLen_stringifyBookmarks_two (b1 b2 : Bookmark) :
    jsLen (stringifyBookmarks [b1, b2]) =
      3 + jsLen (stringifyBookmark b1) + jsLen (stringifyBookmark b2) := by
  unfold stringifyBookmarks joinComma
  simp only [List.map_cons, List.map_nil]
  rw [show joinComma [stringifyBookmark b2] = stringifyBookmark b2 from rfl]
  simp only [jsLen_append]
  have h1 : jsLen (str "[") = 1 := by decide
  have h2 : jsLen (str "]") = 1 := by decide
  have h3 : jsLen (str ",") = 1 := by decide
  omega

/-- JSON escaping leaves the example GIF data URI unchanged. -/
theorem jsonEscape_gifImage : jsonEscape gifImage = gifImage := by
  rw [gifImage, jsonEscape_append]
  have h1 : jsonEscape (str "data:image/gif;base64") = str "data:image/gif;base64" := by decide
  have h2 : jsonEscape (',' :: repA 2200000) = ',' :: repA 2200000 := by
    show escChar ',' ++ jsonEscape (repA 2200000) = ',' :: repA 2200000
    rw [jsonEscape_repA, show escChar ',' = [','] from by decide]
    rfl
  rw [h1, h2]

/-- JSON escaping leaves the big `a`-block image unchanged. -/
theorem jsonEscape_bigImage : jsonEscape bigImage = bigImage := jsonEscape_repA 6000000

/-- Serialized length of the example GIF entry. -/
theorem jsLen_stringify_gifBookmark : jsLen (stringifyBookmark gifBookmark) = 2200113 := by
  have hx := jsLen_stringify_with_image gifBookmark gifNoImage gifImage rfl rfl
  rw [jsonEscape_gifImage, jsLen_gifImage] at hx
  rw [hx, show jsLen (stringifyBookmark gifNoImage) = 74 from by decide]

/-- Serialized length of the big entry: dominated by its 6,000,000
image characters. -/
theorem jsLen_stringify_bigBookmark : jsLen (stringifyBookmark bigBookmark) = 6000093 := by
  have hx := jsLen_stringify_with_image bigBookmark bigNoImage bigImage rfl rfl
  rw [jsonEscape_bigImage] at hx
  rw [hx, show jsLen (stringifyBookmark bigNoImage) = 76 from by decide,
    show jsLen bigImage = 6000000 from jsLen_repA 6000000]

/-- Concrete evaluation of the traversal through its fueled version. -/
theorem getNestedItems_concrete (l : List Bookmark) (pid : JStr) (fuel : Nat) (res : List JStr)
    (hm : nestMeasure l pid [] < fuel) (h : getNestedItemsF l fuel pid [] = some res) :
    getNestedItems l pid [] = res := by
  have h2 := getNestedItemsF_eq_of_lt fuel pid [] hm
  rw [h] at h2
  exact (Option.some.inj h2).symm

/-- A local-filtered list contains only local entries. -/
theorem filter_all_isLocal (l : List Bookmark) :
    ((l.filter (fun x => x.isLocal)).all (fun x => x.isLocal)) = true := by
  rw [List.all_eq_true]
  intro x hx
  exact (List.mem_filter.mp hx).2

/-- The prepared entry is always marked local (line 152). -/
theorem prepare_isLocal (codec : ImgCodec) (b : Bookmark) :
    (prepareBookmarkForStorage codec b).1.isLocal = true := by
  cases himg : b.customImage with
  | none => rw [prepare_none codec b himg]
  | some img =>
    by_cases h50 : jsLen img > 50000
    · cases hc : compressImageData codec img with
      | ok s => rw [prepare_of_compress_ok codec b img s himg h50 hc]
      | error e =>
        cases e
        rw [prepare_of_compress_error codec b img himg h50 hc]
        by_cases ht : b.type = BmType.BOOKMARK
        · rw [if_pos ht]
        · rw [if_neg ht]
    · rw [prepare_small codec b img himg h50]

/-- Claim C3: for every bookmark sequence, including ones whose `parentId`
edges form a cycle, the cycle-guarded descendant traversal used by
`deleteBookmark` terminates: with fuel `l.length + 1` the fueled
traversal already completes, and it computes exactly the total function
`getNestedItems` that `deleteBookmark` uses. -/
theorem getNestedItems_terminates (l : List Bookmark) (pid : JStr) :
    getNestedItemsF l (l.length + 1) pid [] = some (getNestedItems l pid []) := by
  apply getNestedItemsF_eq_of_lt
  have h1 : nestMeasure l pid [] ≤ (l.map (fun b => b.id)).toFinset.card :=
    Finset.card_le_card Finset.sdiff_subset
  have h2 : (l.map (fun b => b.id)).toFinset.card ≤ (l.map (fun b => b.id)).length :=
    List.toFinset_card_le _
  rw [List.length_map] at h2
  omega

/-- Claim C4: `getCurrentFolderItems` of the root returns exactly the
pinned entries followed by the un-pinned root entries, each group in
original sequence order, and never contains a non-root un-pinned entry;
for a folder id it returns exactly the un-pinned entries of that folder
in order.  The operation is a pure read: it is a function of the
sequence only. -/
theorem getCurrentFolderItems_spec (l : List Bookmark) (p : JStr) :
    getCurrentFolderItems l none =
      l.filter (fun b => b.pinned) ++
        l.filter (fun b => decide (b.parentId = none) && !b.pinned) ∧
    (getCurrentFolderItems l none).all
      (fun b => b.pinned || decide (b.parentId = none)) = true ∧
    getCurrentFolderItems l (some p) =
      l.filter (fun b => decide (b.parentId = some p) && !b.pinned) := by
  refine ⟨rfl, ?_, rfl⟩
  rw [List.all_eq_true]
  intro b hb
  have hb2 : b ∈ l.filter (fun b => b.pinned) ++
      l.filter (fun b => decide (b.parentId = none) && !b.pinned) := hb
  rcases List.mem_append.mp hb2 with h | h
  · rw [List.mem_filter] at h
    rw [h.2]
    rfl
  · rw [List.mem_filter] at h
    have h2 := h.2
    simp only [Bool.and_eq_true, decide_eq_true_eq] at h2
    simp [h2.1]

/-- Claim C7: for an entry carrying a (truthy) embedded image whose
data URI has a base64 payload after its first comma, the footprint is
`ceil(3*L/4)` for the payload length `L` plus the JSON size of the entry
with the image removed; for an entry without an embedded image it is the
JSON size of the whole entry. -/
theorem getBookmarkDataSize_formula :
    (∀ (b : Bookmark) (img payload : JStr), b.customImage = some img → img.isEmpty = false →
      (splitChars img)[1]? = some payload → payload.isEmpty = false →
      getBookmarkDataSize b =
        (3 * jsLen payload + 3) / 4 +
          blobSize (stringifyBookmark { b with customImage := none })) ∧
    (∀ b : Bookmark, b.customImage = none →
      getBookmarkDataSize b = blobSize (stringifyBookmark b)) := by
  constructor
  · intro b img payload h hne hsplit hpne
    rw [getBookmarkDataSize_some b img h hne]
    have hpay : base64Payload img = payload := by
      unfold base64Payload
      cases ll : splitChars img with
      | nil => rw [ll] at hsplit; simp at hsplit
      | cons a t =>
        cases t with
        | nil => rw [ll] at hsplit; simp at hsplit
        | cons s rest =>
          rw [ll] at hsplit
          simp only [List.getElem?_cons_succ, List.getElem?_cons_zero, Option.some_inj] at hsplit
          subst hsplit
          show (if List.isEmpty s = true then img else s) = s
          rw [hpne]
          simp
    rw [hpay]
  · intro b h
    exact getBookmarkDataSize_none b h

/-- Witness for C7 at a concrete entry with payload `QUJD` (length 4):
footprint is `ceil(12/4) = 3` image bytes plus the JSON of the rest. -/
theorem getBookmarkDataSize_formula_witness :
    (splitChars (str "data:image/png;base64,QUJD"))[1]? = some (str "QUJD") ∧
    getBookmarkDataSize smallImgBookmark =
      (3 * jsLen (str "QUJD") + 3) / 4 +
        blobSize (stringifyBookmark { smallImgBookmark with customImage := none }) :=
  ⟨by decide,
    getBookmarkDataSize_formula.1 smallImgBookmark (str "data:image/png;base64,QUJD")
      (str "QUJD") rfl (by decide) (by decide) (by decide)⟩

/-- Claim C9: every value written to the persisted "bookmarks" key — by
`addBookmark`, `deleteBookmark`, or the save-on-change effect — contains
only `isLocal` entries (when no write happens the store field is
unchanged), and the entry appended by `addBookmark` is the prepared
entry, which is always marked `isLocal = true`. -/
theorem bookmarks_writes_local (st : StoreState) (codec : ImgCodec) (b : Bookmark)
    (delId : JStr) :
    ((addBookmark st codec b).1.storedBookmarks = st.storedBookmarks ∨
      ((addBookmark st codec b).1.storedBookmarks.all (fun x => x.isLocal)) = true) ∧
    ((deleteBookmark st delId).storedBookmarks = st.storedBookmarks ∨
      ((deleteBookmark st delId).storedBookmarks.all (fun x => x.isLocal)) = true) ∧
    ((saveBookmarksEffect st).storedBookmarks = st.storedBookmarks ∨
      ((saveBookmarksEffect st).storedBookmarks.all (fun x => x.isLocal)) = true) ∧
    (prepareBookmarkForStorage codec b).1.isLocal = true ∧
    ((addBookmark st codec b).1.bookmarks = st.bookmarks ∨
      (addBookmark st codec b).1.bookmarks =
        st.bookmarks ++ [(prepareBookmarkForStorage codec b).1]) := by
  have hadd : addBookmark st codec b = (st, AddOutcome.errTooLarge) ∨
      addBookmark st codec b = (st, AddOutcome.errAggregate) ∨
      addBookmark st codec b =
        ({ st with
            bookmarks := st.bookmarks ++ [(prepareBookmarkForStorage codec b).1],
            storedBookmarks :=
              (st.bookmarks ++ [(prepareBookmarkForStorage codec b).1]).filter
                (fun x => x.isLocal) },
          AddOutcome.ok) := by
    by_cases h1 : getBookmarkDataSize b > sizeLimitFor b
    · exact Or.inl (addBookmark_tooLarge st codec b h1)
    · by_cases h2 : jsLen (stringifyBookmarks
        ((st.bookmarks ++ [(prepareBookmarkForStorage codec b).1]).filter
          (fun x => x.isLocal))) > 5 * 1024 * 1024
      · exact Or.inr (Or.inl (addBookmark_aggregate st codec b h1 h2))
      · exact Or.inr (Or.inr (addBookmark_ok st codec b h1 h2))
  have hdel : (deleteBookmark st delId).storedBookmarks = st.storedBookmarks ∨
      ((deleteBookmark st delId).storedBookmarks.all (fun x => x.isLocal)) = true := by
    cases hf : st.bookmarks.find? (fun x => decide (x.id = delId)) with
    | none => rw [deleteBookmark_notFound st delId hf]; exact Or.inl rfl
    | some btd => rw [deleteBookmark_found st delId btd hf]; exact Or.inr (filter_all_isLocal _)
  have hsave : (saveBookmarksEffect st).storedBookmarks = st.storedBookmarks ∨
      ((saveBookmarksEffect st).storedBookmarks.all (fun x => x.isLocal)) = true := by
    unfold saveBookmarksEffect
    by_cases h : st.bookmarks.any (fun x => x.isLocal) = true
    · rw [if_pos h]; exact Or.inr (filter_all_isLocal _)
    · rw [if_neg h]; exact Or.inl rfl
  refine ⟨?_, hdel, hsave, prepare_isLocal codec b, ?_⟩
  · rcases hadd with h | h | h <;> rw [h]
    · exact Or.inl rfl
    · exact Or.inl rfl
    · exact Or.inr (filter_all_isLocal _)
  · rcases hadd with h | h | h <;> rw [h]
    · exact Or.inl rfl
    · exact Or.inl rfl
    · exact Or.inr rfl

/-- Claim C10: when the entry found for the deleted id is `BOOKMARK`-typed
(ids unique, as the data model requires), `deleteBookmark` removes exactly
that entry: the post sequence is the original with only that id filtered
out, every other entry — including entries whose `parentId` references the
deleted id, which become orphans — stays, and the ledger gains exactly
that one id. -/
theorem deleteBookmark_nonfolder (st : StoreState) (delId : JStr) (b : Bookmark)
    (hnd : (st.bookmarks.map (fun x => x.id)).Nodup)
    (hf : st.bookmarks.find? (fun x => decide (x.id = delId)) = some b)
    (ht : b.type = BmType.BOOKMARK) :
    (deleteBookmark st delId).bookmarks =
      st.bookmarks.filter (fun x => decide (¬ x.id = delId)) ∧
    (∀ x ∈ st.bookmarks, x ≠ b → x ∈ (deleteBookmark st delId).bookmarks) ∧
    b ∉ (deleteBookmark st delId).bookmarks ∧
    (deleteBookmark st delId).deletedBookmarkIds = st.deletedBookmarkIds ++ [delId] := by
  have hbid : b.id = delId := by
    have hp := List.find?_some hf
    simpa using hp
  have hbmem : b ∈ st.bookmarks := List.mem_of_find?_eq_some hf
  have hitems : itemsToDelete st delId b = [delId] := by
    unfold itemsToDelete
    rw [if_neg]
    rw [ht]
    intro hcontra
    exact absurd hcontra (by decide)
  rw [deleteBookmark_found st delId b hf, hitems]
  have hfeq : st.bookmarks.filter (fun x => decide (x.id ∉ [delId])) =
      st.bookmarks.filter (fun x => decide (¬ x.id = delId)) := by
    apply List.filter_congr
    intro x _
    simp
  refine ⟨hfeq, ?_, ?_, rfl⟩
  · intro x hx hxb
    rw [List.mem_filter]
    refine ⟨hx, ?_⟩
    simp only [decide_eq_true_eq, List.mem_singleton]
    intro he
    exact hxb (List.inj_on_of_nodup_map hnd hx hbmem (he.trans hbid.symm))
  · intro hb
    rw [List.mem_filter] at hb
    have h2 := hb.2
    simp only [decide_eq_true_eq, List.mem_singleton] at h2
    exact h2 hbid

/-- Witness for C10: deleting the bookmark `a` from a state where `c`
references it leaves `c` in place as an orphan. -/
theorem deleteBookmark_nonfolder_witness :
    (deleteBookmark wState10 (str "a")).bookmarks =
      wState10.bookmarks.filter (fun x => decide (¬ x.id = str "a")) ∧
    (∀ x ∈ wState10.bookmarks, x ≠ wA → x ∈ (deleteBookmark wState10 (str "a")).bookmarks) ∧
    wA ∉ (deleteBookmark wState10 (str "a")).bookmarks ∧
    (deleteBookmark wState10 (str "a")).deletedBookmarkIds =
      wState10.deletedBookmarkIds ++ [str "a"] :=
  deleteBookmark_nonfolder wState10 (str "a") wA (by decide) (by decide) rfl

/-- Claim C2 (amended): with unique ids, deleting a folder entry removes
it and every entry reachable from it through `FOLDER`-typed parent
chains — the post sequence contains no entry with the folder's id and no
entry that folder-descends from it — and the ledger is extended by
exactly the folder's id followed by the traversed descendant ids, a list
that contains the id of every removed entry. -/
theorem deleteBookmark_folder_cascade (st : StoreState) (f : Bookmark)
    (hnd : (st.bookmarks.map (fun x => x.id)).Nodup)
    (hf : f ∈ st.bookmarks) (ht : f.type = BmType.FOLDER) :
    (∀ x ∈ (deleteBookmark st f.id).bookmarks,
      ¬ x.id = f.id ∧ ¬ DescFolder st.bookmarks f.id x) ∧
    (deleteBookmark st f.id).deletedBookmarkIds =
      st.deletedBookmarkIds ++ (f.id :: getNestedItems st.bookmarks f.id []) ∧
    (∀ x ∈ st.bookmarks, x ∉ (deleteBookmark st f.id).bookmarks →
      x.id ∈ f.id :: getNestedItems st.bookmarks f.id []) := by
  have hfind := find?_id_of_nodup hnd hf
  have hitems : itemsToDelete st f.id f = f.id :: getNestedItems st.bookmarks f.id [] := by
    unfold itemsToDelete
    rw [if_pos ht]
  rw [deleteBookmark_found st f.id f hfind, hitems]
  refine ⟨?_, rfl, ?_⟩
  · intro x hx
    rw [List.mem_filter] at hx
    have hnot := hx.2
    simp only [decide_eq_true_eq] at hnot
    constructor
    · intro he
      exact hnot (he ▸ List.mem_cons_self _ _)
    · rintro ⟨ch, hch, hlast⟩
      rcases chain_complete ch.length ch f.id [] x (le_refl _) hch
          (by intro y hy; exact List.not_mem_nil y) hlast with h1 | h2
      · exact hnot (h1 ▸ List.mem_cons_self _ _)
      · exact hnot (List.mem_cons_of_mem _ h2)
  · intro x hx hnot
    by_contra hne
    exact hnot (List.mem_filter.mpr ⟨hx, by simpa using hne⟩)

/-- Witness for C2 at a concrete three-level tree: deleting the folder
`f` cascades through the folder `c1` to the bookmark `c2`. -/
theorem deleteBookmark_folder_cascade_witness :
    (∀ x ∈ (deleteBookmark wState wF.id).bookmarks,
      ¬ x.id = wF.id ∧ ¬ DescFolder wState.bookmarks wF.id x) ∧
    (deleteBookmark wState wF.id).deletedBookmarkIds =
      wState.deletedBookmarkIds ++ (wF.id :: getNestedItems wState.bookmarks wF.id []) ∧
    (∀ x ∈ wState.bookmarks, x ∉ (deleteBookmark wState wF.id).bookmarks →
      x.id ∈ wF.id :: getNestedItems wState.bookmarks wF.id []) :=
  deleteBookmark_folder_cascade wState wF (by decide) (by decide) rfl

/-- Claim C2 is false as stated: in `ceState` the entry `ceB` reaches the
folder `ceF` by `parentId` edges (through the `BOOKMARK`-typed entry
`ceX`), yet it survives `deleteBookmark` of the folder, because the
traversal only recurses through `FOLDER`-typed children. -/
theorem deleteBookmark_folder_counterexample :
    ceF ∈ ceState.bookmarks ∧ ceF.type = BmType.FOLDER ∧
    ((ceState.bookmarks.map (fun x => x.id)).Nodup) ∧
    DescAny ceState.bookmarks ceF.id ceB ∧
    ceB ∈ (deleteBookmark ceState ceF.id).bookmarks := by
  refine ⟨by decide, rfl, by decide, ?_, ?_⟩
  · exact ⟨[ceX, ceB], ⟨by decide, rfl, trivial, by decide, rfl⟩, rfl⟩
  · have hfind : ceState.bookmarks.find? (fun b => decide (b.id = ceF.id)) = some ceF := by
      decide
    have hN : getNestedItems ceState.bookmarks ceF.id [] = [str "x"] :=
      getNestedItems_concrete ceState.bookmarks ceF.id 4 [str "x"] (by decide) (by decide)
    have hitems : itemsToDelete ceState ceF.id ceF =
        ceF.id :: getNestedItems ceState.bookmarks ceF.id [] := by
      unfold itemsToDelete
      rw [if_pos (show ceF.type = BmType.FOLDER from rfl)]
    rw [deleteBookmark_found ceState ceF.id ceF hfind, hitems, hN]
    decide

/-- Preparing the small image-free entry only re-marks it local. -/
theorem prep_newSmall : (prepareBookmarkForStorage codecNoAtob newSmall).1 = newSmall := by
  rw [prepare_none codecNoAtob newSmall rfl]
  rfl

/-- In `bigState`, the serialized local entries after appending the small
entry exceed 5 MiB. -/
theorem aggregate_big_exceeds :
    jsLen (stringifyBookmarks
      ((bigState.bookmarks ++ [(prepareBookmarkForStorage codecNoAtob newSmall).1]).filter
        (fun x => x.isLocal))) > 5 * 1024 * 1024 := by
  rw [prep_newSmall]
  have hfil : (bigState.bookmarks ++ [newSmall]).filter (fun x => x.isLocal) =
      [bigBookmark, newSmall] := rfl
  rw [hfil, jsLen_stringifyBookmarks_two, jsLen_stringify_bigBookmark]
  omega

/-- Claim C1 (amended): when the aggregate 5 MiB check fails, the add
aborts without persisting and without changing the in-memory sequence:
the appended entry lived only on a local copy that is discarded
(`setBookmarks` is never reached), so no rollback is needed. -/
theorem addBookmark_aggregate_no_mutation (st : StoreState) (codec : ImgCodec) (b : Bookmark)
    (h1 : ¬ getBookmarkDataSize b > sizeLimitFor b)
    (h2 : jsLen (stringifyBookmarks
      ((st.bookmarks ++ [(prepareBookmarkForStorage codec b).1]).filter
        (fun x => x.isLocal))) > 5 * 1024 * 1024) :
    addBookmark st codec b = (st, AddOutcome.errAggregate) :=
  addBookmark_aggregate st codec b h1 h2

/-- Witness for the amended C1 at the concrete overflowing input. -/
theorem addBookmark_aggregate_no_mutation_witness :
    jsLen (stringifyBookmarks
      ((bigState.bookmarks ++ [(prepareBookmarkForStorage codecNoAtob newSmall).1]).filter
        (fun x => x.isLocal))) > 5 * 1024 * 1024 ∧
    addBookmark bigState codecNoAtob newSmall = (bigState, AddOutcome.errAggregate) :=
  ⟨aggregate_big_exceeds,
    addBookmark_aggregate_no_mutation bigState codecNoAtob newSmall (by decide)
      aggregate_big_exceeds⟩

/-- Claim C1 is false as stated: on the concrete aggregate-overflow input
the add aborts, and the in-memory sequence does NOT contain the appended
entry — it equals the previous sequence, which has no entry with the new
id. -/
theorem addBookmark_aggregate_counterexample :
    jsLen (stringifyBookmarks
      ((bigState.bookmarks ++ [(prepareBookmarkForStorage codecNoAtob newSmall).1]).filter
        (fun x => x.isLocal))) > 5 * 1024 * 1024 ∧
    (addBookmark bigState codecNoAtob newSmall).2 = AddOutcome.errAggregate ∧
    (addBookmark bigState codecNoAtob newSmall).1.bookmarks = bigState.bookmarks ∧
    ((addBookmark bigState codecNoAtob newSmall).1.bookmarks.all
      (fun x => decide (¬ x.id = newSmall.id))) = true := by
  have ha := addBookmark_aggregate bigState codecNoAtob newSmall (by decide)
    aggregate_big_exceeds
  rw [ha]
  exact ⟨aggregate_big_exceeds, rfl, rfl, by decide⟩

/-- Claim C5's "aborts exactly when the footprint exceeds its ceiling" is
false: the concrete entry `newSmall` has footprint within its ceiling,
yet `addBookmark` reports an error and appends nothing, because the
separate aggregate check fails in `bigState`. -/
theorem addBookmark_sizeLimit_counterexample :
    ¬ getBookmarkDataSize newSmall > sizeLimitFor newSmall ∧
    (addBookmark bigState codecNoAtob newSmall).2 ≠ AddOutcome.ok ∧
    (addBookmark bigState codecNoAtob newSmall).1.bookmarks = bigState.bookmarks := by
  have ha := addBookmark_aggregate bigState codecNoAtob newSmall (by decide)
    aggregate_big_exceeds
  rw [ha]
  exact ⟨by decide, by decide, rfl⟩

/-- The example PNG entry exceeds its (base) ceiling. -/
theorem size_gt_limit_pngBookmark : getBookmarkDataSize pngBookmark > sizeLimitFor pngBookmark := by
  rw [size_pngBookmark, sizeLimitFor_pngBookmark]
  norm_num [MAX_BOOKMARK_SIZE]

/-- Adding the example GIF entry to the empty store succeeds. -/
theorem addBookmark_gif_ok :
    addBookmark emptyState codecNoAtob gifBookmark =
      ({ emptyState with
          bookmarks := emptyState.bookmarks ++ [(prepareBookmarkForStorage codecNoAtob gifBookmark).1],
          storedBookmarks :=
            (emptyState.bookmarks ++ [(prepareBookmarkForStorage codecNoAtob gifBookmark).1]).filter
              (fun x => x.isLocal) },
        AddOutcome.ok) := by
  apply addBookmark_ok
  · rw [size_gifBookmark, sizeLimitFor_gifBookmark]
    norm_num
  · rw [show (prepareBookmarkForStorage codecNoAtob gifBookmark).1 = gifBookmark from
      by rw [prep_gifBookmark]]
    have hfil : (emptyState.bookmarks ++ [gifBookmark]).filter (fun x => x.isLocal) =
        [gifBookmark] := rfl
    rw [hfil, jsLen_stringifyBookmarks_one, jsLen_stringify_gifBookmark]
    norm_num

/-- Claim C5 (amended): `addBookmark` reports the per-entry too-large
error and aborts at the size validation exactly when the footprint
exceeds its ceiling — 1.5 x the base ceiling for an animated (GIF) data
URI, the base ceiling otherwise — though an add whose footprint is within
the ceiling can still abort for the separate aggregate reason.  In
particular the animated example entry, whose footprint 1650074 is over
the base ceiling but under 1.5 x it, is appended, while the non-animated
entry of the same footprint is rejected. -/
theorem addBookmark_sizeLimit (st : StoreState) (codec : ImgCodec) (b : Bookmark) :
    ((addBookmark st codec b).2 = AddOutcome.errTooLarge ↔
      getBookmarkDataSize b > sizeLimitFor b) ∧
    (getBookmarkDataSize b > sizeLimitFor b →
      addBookmark st codec b = (st, AddOutcome.errTooLarge)) ∧
    sizeLimitFor gifBookmark = 3 * MAX_BOOKMARK_SIZE / 2 ∧
    sizeLimitFor pngBookmark = MAX_BOOKMARK_SIZE ∧
    getBookmarkDataSize gifBookmark = getBookmarkDataSize pngBookmark ∧
    getBookmarkDataSize gifBookmark > MAX_BOOKMARK_SIZE ∧
    (addBookmark emptyState codecNoAtob gifBookmark).2 = AddOutcome.ok ∧
    (addBookmark emptyState codecNoAtob pngBookmark).2 = AddOutcome.errTooLarge := by
  refine ⟨?_, addBookmark_tooLarge st codec b, ?_, sizeLimitFor_pngBookmark, ?_, ?_, ?_, ?_⟩
  · constructor
    · intro hout
      by_contra h1
      by_cases h2 : jsLen (stringifyBookmarks
        ((st.bookmarks ++ [(prepareBookmarkForStorage codec b).1]).filter
          (fun x => x.isLocal))) > 5 * 1024 * 1024
      · rw [addBookmark_aggregate st codec b h1 h2] at hout
        simp at hout
      · rw [addBookmark_ok st codec b h1 h2] at hout
        simp at hout
    · intro h1
      rw [addBookmark_tooLarge st codec b h1]
  · rw [sizeLimitFor_gifBookmark]
    norm_num [MAX_BOOKMARK_SIZE]
  · rw [size_gifBookmark, size_pngBookmark]
  · rw [size_gifBookmark]
    norm_num [MAX_BOOKMARK_SIZE]
  · rw [addBookmark_gif_ok]
  · rw [addBookmark_tooLarge emptyState codecNoAtob pngBookmark size_gt_limit_pngBookmark]

/-- Witness for the amended C5: the non-animated twin is rejected by the
per-entry check. -/
theorem addBookmark_sizeLimit_witness :
    getBookmarkDataSize pngBookmark > sizeLimitFor pngBookmark ∧
    addBookmark emptyState codecNoAtob pngBookmark = (emptyState, AddOutcome.errTooLarge) :=
  ⟨size_gt_limit_pngBookmark,
    (addBookmark_sizeLimit emptyState codecNoAtob pngBookmark).2.1 size_gt_limit_pngBookmark⟩

/-- Claim C6: for every entry whose footprint exceeds its ceiling,
`addBookmark` leaves the persisted store unchanged — the whole state is
returned untouched with the too-large error. -/
theorem addBookmark_tooLarge_frame (st : StoreState) (codec : ImgCodec) (b : Bookmark)
    (h : getBookmarkDataSize b > sizeLimitFor b) :
    (addBookmark st codec b).1.storedBookmarks = st.storedBookmarks ∧
    addBookmark st codec b = (st, AddOutcome.errTooLarge) := by
  rw [addBookmark_tooLarge st codec b h]
  exact ⟨rfl, rfl⟩

/-- Witness for C6 at the over-ceiling PNG entry. -/
theorem addBookmark_tooLarge_frame_witness :
    getBookmarkDataSize pngBookmark > sizeLimitFor pngBookmark ∧
    (addBookmark emptyState codecNoAtob pngBookmark).1.storedBookmarks =
      emptyState.storedBookmarks ∧
    addBookmark emptyState codecNoAtob pngBookmark = (emptyState, AddOutcome.errTooLarge) :=
  ⟨size_gt_limit_pngBookmark,
    (addBookmark_tooLarge_frame emptyState codecNoAtob pngBookmark
      size_gt_limit_pngBookmark).1,
    (addBookmark_tooLarge_frame emptyState codecNoAtob pngBookmark
      size_gt_limit_pngBookmark).2⟩

/-- Claim C8: when the embedded image exceeds the 50,000-character inline
threshold, the add attempts compression before storing; on compression
failure the entry is stored with the original image for non-`BOOKMARK`
types but with the image dropped for `BOOKMARK`-typed entries, and a
user-facing warning is emitted (the `true` flag); compression failure is
never fatal to the add — past the per-entry size check the only remaining
abort is the aggregate check, whatever the codec does. -/
theorem prepare_compression_fallback (codec : ImgCodec) (st : StoreState) (b : Bookmark)
    (img : JStr) (himg : b.customImage = some img) (h50 : jsLen img > 50000) :
    (∀ s, compressImageData codec img = Except.ok s →
      prepareBookmarkForStorage codec b =
        ({ b with isLocal := true, customImage := some s }, false)) ∧
    (compressImageData codec img = Except.error () →
      prepareBookmarkForStorage codec b =
        (if b.type = BmType.BOOKMARK then { b with isLocal := true, customImage := none }
         else { b with isLocal := true }, true)) ∧
    (¬ getBookmarkDataSize b > sizeLimitFor b →
      (addBookmark st codec b).2 = AddOutcome.ok ∨
        (addBookmark st codec b).2 = AddOutcome.errAggregate) := by
  refine ⟨?_, ?_, ?_⟩
  · intro s hc
    exact prepare_of_compress_ok codec b img s himg h50 hc
  · intro hc
    exact prepare_of_compress_error codec b img himg h50 hc
  · intro h1
    by_cases h2 : jsLen (stringifyBookmarks
      ((st.bookmarks ++ [(prepareBookmarkForStorage codec b).1]).filter
        (fun x => x.isLocal))) > 5 * 1024 * 1024
    · rw [addBookmark_aggregate st codec b h1 h2]
      exact Or.inr rfl
    · rw [addBookmark_ok st codec b h1 h2]
      exact Or.inl rfl

/-- The mid-size PNG data URI is non-empty. -/
theorem midImage_not_empty : midImage.isEmpty = false := by
  rw [midImage]
  exact isEmpty_append_left _ (by decide)

/-- Payload of the mid-size PNG data URI. -/
theorem base64Payload_midImage : base64Payload midImage = repA 50000 := by
  rw [midImage]
  exact base64Payload_data_uri _ _ (by decide) (comma_not_mem_repA _) (repA_ne_nil (by norm_num))

/-- Footprint of the mid-size entry: well within the ceiling. -/
theorem size_midBookmark : getBookmarkDataSize midBookmark = 37574 := by
  rw [getBookmarkDataSize_some midBookmark midImage rfl midImage_not_empty,
    base64Payload_midImage, jsLen_repA]
  have hb : blobSize (stringifyBookmark { midBookmark with customImage := none }) = 74 := by
    decide
  rw [hb]

/-- The mid-size PNG data URI is not recognized as a GIF. -/
theorem gif_isPrefixOf_midImage : (str "data:image/gif").isPrefixOf midImage = false := by
  rw [midImage, isPrefixOf_append_left _ (by decide)]
  decide

/-- Ceiling of the mid-size entry: the base ceiling. -/
theorem sizeLimitFor_midBookmark : sizeLimitFor midBookmark = MAX_BOOKMARK_SIZE := by
  unfold sizeLimitFor
  rw [show midBookmark.customImage = some midImage from rfl]
  simp only [gif_isPrefixOf_midImage, Bool.false_eq_true, if_false]

/-- Witness for C8: the mid-size `BOOKMARK`-typed entry under the
rejecting codec — compression fails, the image is dropped, a warning is
emitted, and the add is not aborted by the failure. -/
theorem prepare_compression_fallback_witness :
    jsLen midImage > 50000 ∧
    compressImageData codecReject midImage = Except.error () ∧
    prepareBookmarkForStorage codecReject midBookmark =
      (if midBookmark.type = BmType.BOOKMARK then
        { midBookmark with isLocal := true, customImage := none }
       else { midBookmark with isLocal := true }, true) ∧
    ((addBookmark emptyState codecReject midBookmark).2 = AddOutcome.ok ∨
      (addBookmark emptyState codecReject midBookmark).2 = AddOutcome.errAggregate) := by
  have h50 : jsLen midImage > 50000 := by
    rw [jsLen_midImage]
    norm_num
  have hsz : ¬ getBookmarkDataSize midBookmark > sizeLimitFor midBookmark := by
    rw [size_midBookmark, sizeLimitFor_midBookmark]
    norm_num [MAX_BOOKMARK_SIZE]
  exact ⟨h50,
    compress_midImage,
    (prepare_compression_fallback codecReject emptyState midBookmark midImage rfl h50).2.1
      compress_midImage,
    (prepare_compression_fallback codecReject emptyState midBookmark midImage rfl h50).2.2 hsz⟩
